import Mathlib

/-!
Shallow embedding of the cost/margin pipeline of `src/app.py`
(a Streamlit dashboard over a polysilicon price series).

Numbers that the Python code manipulates as IEEE doubles are modelled as
exact rationals; the float literals of the source (0.60, 0.68, 12.0, ...)
appear as the corresponding rational literals.  Series are `List ℚ`,
positionally indexed exactly as the pandas columns are.
-/

namespace App

/-! ### Shock-to-Margin simulator (src/app.py lines 66-68 and 168-177) -/

/-- Line 66: `node_map = {"65 nm": 700, "28 nm": 900, "14 nm": 1200, "7 nm": 1600}`. -/
def node_map : List (String × ℕ) :=
  [("65 nm", 700), ("28 nm", 900), ("14 nm", 1200), ("7 nm", 1600)]

/-- Line 68: `dies_per_wafer = node_map[node]`.  A Python dict lookup raises
(KeyError) on a key that is absent, modelled as `none`; it never defaults. -/
def diesPerWafer (node : String) : Option ℕ :=
  node_map.lookup node

/-- Line 168: `shocked_price = df["price_usd_per_kg"] * (1 + shock / 100)`. -/
def shockedPriceSeries (shock : ℚ) (price : List ℚ) : List ℚ :=
  price.map (fun p => p * (1 + shock / 100))

/-- Line 169: `wafer_cost = shocked_price * 0.60 / 0.68`. -/
def waferCostSeries (shock : ℚ) (price : List ℚ) : List ℚ :=
  (shockedPriceSeries shock price).map (fun s => s * 0.60 / 0.68)

/-- Line 170: `die_cost = wafer_cost / dies_per_wafer`. -/
def dieCostSeries (shock : ℚ) (dies : ℕ) (price : List ℚ) : List ℚ :=
  (waferCostSeries shock price).map (fun w => w / (dies : ℚ))

/-- Line 172: `ASP = 12.0`. -/
def ASP : ℚ := 12.0

/-- Line 173: `margin = (ASP - die_cost) / ASP * 100`. -/
def marginSeries (shock : ℚ) (dies : ℕ) (price : List ℚ) : List ℚ :=
  (dieCostSeries shock dies price).map (fun d => (ASP - d) / ASP * 100)

/-- Arithmetic mean of a series, as `Series.mean()` computes it
(sum over length; the empty case never occurs in the displayed metrics). -/
def mean (xs : List ℚ) : ℚ := xs.sum / (xs.length : ℚ)

/-- The simulator's result record: the two derived series and the two
aggregates displayed at lines 176-177. -/
structure SimulationResult where
  die_cost_series : List ℚ
  margin_series : List ℚ
  mean_die_cost : ℚ
  mean_margin_pct : ℚ
deriving DecidableEq

/-- `simulate(priceSeries, shockPct, node)`: the whole of tab 6, failing
(as the dict lookup at line 68 does) when the node label is unknown. -/
def simulate (price : List ℚ) (shock : ℚ) (node : String) : Option SimulationResult :=
  (diesPerWafer node).map (fun dies =>
    { die_cost_series := dieCostSeries shock dies price
      margin_series := marginSeries shock dies price
      mean_die_cost := mean (dieCostSeries shock dies price)
      mean_margin_pct := mean (marginSeries shock dies price) })

/-! ### Monthly OHLC resampler (src/app.py lines 95-99) -/

/-- One candlestick bar, the four aggregates of lines 96-99
(`first`, `max`, `min`, `last` renamed open/high/low/close). -/
structure OHLCBar where
  open_ : ℚ
  high : ℚ
  low : ℚ
  close : ℚ
deriving DecidableEq

/-- The ratio values falling in calendar month `m` (a (year, month) pair, as
`resample("M", on="date")` groups), in the chronological order of the
date-sorted frame. -/
def monthValues (m : ℕ × ℕ) (xs : List ((ℕ × ℕ) × ℚ)) : List ℚ :=
  (xs.filter (fun r => r.1 == m)).map (fun r => r.2)

/-- Aggregate one month's values: open = first, high = max, low = min,
close = last.  A month with no points yields no bar (pandas emits NaNs). -/
def toOHLC : List ℚ → Option OHLCBar
  | [] => none
  | v :: rest =>
      some { open_ := v
             high := rest.foldl max v
             low := rest.foldl min v
             close := rest.getLastD v }

/-- The bar `resample("M").agg` produces for month `m` of the dated ratio
series `xs`. -/
def monthlyBar (m : ℕ × ℕ) (xs : List ((ℕ × ℕ) × ℚ)) : Option OHLCBar :=
  toOHLC (monthValues m xs)

/-! ### Correlator (src/app.py lines 128 and 145) -/

/-- `Series.shift(lag)` for a nonnegative lag: the head gains `lag` missing
values (NaN), every value moves `lag` positions later, the overflow at the
tail is dropped, and the length is preserved. -/
def shiftForward (lag : ℕ) (xs : List (Option ℚ)) : List (Option ℚ) :=
  List.replicate lag none ++ xs.take (xs.length - lag)

/-- The positionally aligned pairs where both series carry a value:
`Series.corr` ignores any pair with a missing side. -/
def validPairs (a b : List (Option ℚ)) : List (ℚ × ℚ) :=
  (a.zip b).filterMap (fun q => match q with
    | (some x, some y) => some (x, y)
    | _ => none)

/-- Pearson correlation of a pair list in exact real arithmetic: covariance
over the product of the standard deviations.  A degenerate input (fewer than
two pairs or zero variance) makes a denominator 0; real division by 0 yields
0 here, standing for the NaN pandas reports. -/
noncomputable def corrOfPairs (ps : List (ℚ × ℚ)) : ℝ :=
  let n : ℚ := ps.length
  let mx : ℚ := (ps.map Prod.fst).sum / n
  let my : ℚ := (ps.map Prod.snd).sum / n
  let cov : ℚ := (ps.map (fun q => (q.1 - mx) * (q.2 - my))).sum
  let vx : ℚ := (ps.map (fun q => (q.1 - mx) ^ 2)).sum
  let vy : ℚ := (ps.map (fun q => (q.2 - my) ^ 2)).sum
  (cov : ℝ) / (Real.sqrt (vx : ℝ) * Real.sqrt (vy : ℝ))

/-- `a.corr(b)`: Pearson correlation over the valid aligned pairs. -/
noncomputable def pearsonCorrelation (a b : List (Option ℚ)) : ℝ :=
  corrOfPairs (validPairs a b)

/-- Line 145: `df["price_usd_per_kg"].corr(df["Copper"].shift(lag))`. -/
noncomputable def laggedCorrelation (a b : List (Option ℚ)) (lag : ℕ) : ℝ :=
  pearsonCorrelation a (shiftForward lag b)

/-! ### Series normalizer (src/app.py lines 36-56) -/

/-- A raw CSV row: a date string and a price cell (`none` models a missing
or NaN price cell). -/
structure RawRow where
  date : String
  price : Option ℚ

/-- Ascending insertion into a date-sorted list. -/
def insertByDate (x : ℕ × Option ℚ) : List (ℕ × Option ℚ) → List (ℕ × Option ℚ)
  | [] => [x]
  | y :: ys => if x.1 < y.1 then x :: y :: ys else y :: insertByDate x ys

/-- Ascending sort by date.  Models `df.sort_values("date")` (line 37); the
source's default numpy quicksort defines no particular order for tied dates,
so nothing here is proved about ties. -/
def sortByDate (l : List (ℕ × Option ℚ)) : List (ℕ × Option ℚ) :=
  l.foldl (fun acc x => insertByDate x acc) []

/-- Line 36: `pd.to_datetime(df["date"])` applied down the column.
`parseDate` is the date parser (day numbers stand for parsed dates); one
unparsable date makes the whole conversion fail, as `pd.to_datetime`
raises.  The price cell is carried along untouched. -/
def parseRows (parseDate : String → Option ℕ) : List RawRow → Option (List (ℕ × Option ℚ))
  | [] => some []
  | r :: rs =>
      match parseDate r.date, parseRows parseDate rs with
      | some d, some ps => some ((d, r.price) :: ps)
      | _, _ => none

/-- Lines 36-37: `pd.to_datetime(df["date"])` then `df.sort_values("date")`.
An unparsable date raises, modelled as `Except.error`.  No validation
whatsoever is applied to the price column. -/
def normalizeRows (parseDate : String → Option ℕ) (rows : List RawRow) :
    Except Unit (List (ℕ × Option ℚ)) :=
  match parseRows parseDate rows with
  | none => Except.error ()
  | some parsed => Except.ok (sortByDate parsed)

/-! ### Auxiliary macro series (src/app.py lines 42-56) -/

/-- `np.random.normal(mu, sigma, n)` starting at position `start` of the
global generator's standard-normal draw stream `z`: the `i`-th returned
value is `mu + sigma * z (start + i)`. -/
def normalSample (z : ℕ → ℚ) (mu sigma : ℚ) (start n : ℕ) : List ℚ :=
  (List.range n).map (fun i => mu + sigma * z (start + i))

/-- The seven derived columns of lines 44-56. -/
structure AuxiliarySeries where
  DXY : List ℚ
  Copper : List ℚ
  Gold : List ℚ
  Silver : List ℚ
  VIX : List ℚ
  Industrial_Demand : List ℚ
  GDP_Growth : List ℚ
deriving DecidableEq

/-- Lines 44-56: each auxiliary column is a fixed linear map of the price
column plus a fresh noise draw; the seven statements run in program order,
each `np.random.normal(0, sigma, n)` consuming the next block of `n` draws
of the shared stream `z`.  GDP growth (line 56) draws no noise. -/
def deriveAux (z : ℕ → ℚ) (price : List ℚ) : AuxiliarySeries :=
  let n := price.length
  let dxy := List.zipWith (fun p e => 100 - 0.25 * p + e) price (normalSample z 0 0.6 0 n)
  let copper := List.zipWith (fun p e => 6000 + 120 * p + e) price (normalSample z 0 80 n n)
  let gold := List.zipWith (fun p e => 1400 + 4.5 * p + e) price (normalSample z 0 15 (2*n) n)
  let silver := List.zipWith (fun p e => 18 + 0.09 * p + e) price (normalSample z 0 0.6 (3*n) n)
  let vix := List.zipWith (fun p e => 18 + 0.4 * p + e) price (normalSample z 0 2 (4*n) n)
  let ind := List.zipWith (fun c e => 100 + 0.03 * c + e) copper (normalSample z 0 5 (5*n) n)
  let gdp := List.zipWith (fun d v => 2.5 + 0.002 * d - 0.05 * v) ind vix
  { DXY := dxy, Copper := copper, Gold := gold, Silver := silver, VIX := vix,
    Industrial_Demand := ind, GDP_Growth := gdp }

/-- One step of a deterministic stand-in generator for the numpy global
RNG.  Line 42 (`np.random.seed(42)`) makes the whole draw stream a pure
function of the seed; the exact MT19937 bit stream is immaterial here, so a
64-bit linear congruential step stands in for it. -/
def lcgStep (s : ℕ) : ℕ :=
  (6364136223846793005 * s + 1442695040888963407) % 18446744073709551616

/-- The generator state after `k+1` steps from the seed. -/
def lcgState (seed : ℕ) : ℕ → ℕ
  | 0 => lcgStep seed
  | k + 1 => lcgStep (lcgState seed k)

/-- The seed-determined standard-draw stream: position `k` maps the state to
a rational in [-1/2, 1/2). -/
def gaussStream (seed : ℕ) (k : ℕ) : ℚ :=
  ((lcgState seed k % 4294967296 : ℕ) : ℚ) / 4294967296 - 1/2

/-- Lines 42-56 as one function: seed the module-wide generator, then derive
the auxiliary series. -/
def normalizeAux (seed : ℕ) (price : List ℚ) : AuxiliarySeries :=
  deriveAux (gaussStream seed) price

/-- A minimal concrete calendar parser used only at concrete witness inputs:
it recognises the two demo dates (as proleptic day numbers) and nothing
else. -/
def demoParse (s : String) : Option ℕ :=
  if s = "2020-01-01" then some 737424
  else if s = "2020-01-02" then some 737425
  else none

end App

/-! ### Theorems -/

open App

/-- Claim C1: on the two-point series [10, 10] with shockPct = 0 and node
"28 nm" (900 dies per wafer), every waferCost entry is 150/17 (= 10·0.60/0.68
≈ 8.8235), every dieCost entry is 1/102 (≈ 0.009804), every margin entry is
30575/306 (= (12 − 1/102)/12·100 ≈ 99.918), and the reported averages equal
those per-point values. -/
theorem concrete_scenario_10_10 :
    waferCostSeries 0 [10, 10] = [150/17, 150/17] ∧
    simulate [10, 10] 0 ("28 nm") =
      some { die_cost_series := [1/102, 1/102]
             margin_series := [30575/306, 30575/306]
             mean_die_cost := 1/102
             mean_margin_pct := 30575/306 } := by
  constructor
  · norm_num [waferCostSeries, shockedPriceSeries]
  · have h : diesPerWafer ("28 nm") = some 900 := rfl
    norm_num [simulate, h, dieCostSeries,
      waferCostSeries, shockedPriceSeries, marginSeries, mean, ASP]

/-- Claim C2: for every price series with positive prices and a fixed node,
raising the shock percentage strictly raises every die-cost entry and
strictly lowers every margin entry. -/
theorem shock_monotonicity (price : List ℚ) (s1 s2 : ℚ) (dies : ℕ) (i : ℕ) (p : ℚ)
    (hdies : 0 < dies) (hp : price.get? i = some p) (hpos : 0 < p) (hs : s1 < s2) :
    ∃ d1 d2 m1 m2,
      (dieCostSeries s1 dies price).get? i = some d1 ∧
      (dieCostSeries s2 dies price).get? i = some d2 ∧
      (marginSeries s1 dies price).get? i = some m1 ∧
      (marginSeries s2 dies price).get? i = some m2 ∧
      d1 < d2 ∧ m2 < m1 := by
  have hD : (0:ℚ) < (dies : ℚ) := by exact_mod_cast hdies
  have hp2 : price[i]? = some p := by simpa [List.get?_eq_getElem?] using hp
  refine ⟨p * (1 + s1/100) * 0.60 / 0.68 / (dies : ℚ),
    p * (1 + s2/100) * 0.60 / 0.68 / (dies : ℚ),
    (ASP - p * (1 + s1/100) * 0.60 / 0.68 / (dies : ℚ)) / ASP * 100,
    (ASP - p * (1 + s2/100) * 0.60 / 0.68 / (dies : ℚ)) / ASP * 100,
    ?_, ?_, ?_, ?_, ?_, ?_⟩
  · simp [dieCostSeries, waferCostSeries, shockedPriceSeries,
      List.get?_eq_getElem?, List.getElem?_map, hp2]
  · simp [dieCostSeries, waferCostSeries, shockedPriceSeries,
      List.get?_eq_getElem?, List.getElem?_map, hp2]
  · simp [marginSeries, dieCostSeries, waferCostSeries, shockedPriceSeries,
      List.get?_eq_getElem?, List.getElem?_map, hp2]
  · simp [marginSeries, dieCostSeries, waferCostSeries, shockedPriceSeries,
      List.get?_eq_getElem?, List.getElem?_map, hp2]
  · have key : (0:ℚ) < p * 0.60 / 0.68 / (dies : ℚ) * ((s2 - s1) / 100) :=
      mul_pos (by positivity) (by linarith)
    have hdiff : p * (1 + s2/100) * 0.60 / 0.68 / (dies : ℚ)
        - p * (1 + s1/100) * 0.60 / 0.68 / (dies : ℚ)
        = p * 0.60 / 0.68 / (dies : ℚ) * ((s2 - s1) / 100) := by ring
    linarith
  · have key : (0:ℚ) < p * 0.60 / 0.68 / (dies : ℚ) * ((s2 - s1) / 100) :=
      mul_pos (by positivity) (by linarith)
    have hdiff : p * (1 + s2/100) * 0.60 / 0.68 / (dies : ℚ)
        - p * (1 + s1/100) * 0.60 / 0.68 / (dies : ℚ)
        = p * 0.60 / 0.68 / (dies : ℚ) * ((s2 - s1) / 100) := by ring
    have hASP : ASP = 12 := by norm_num [ASP]
    rw [hASP]
    have h12 : p * (1 + s1/100) * 0.60 / 0.68 / (dies : ℚ)
        < p * (1 + s2/100) * 0.60 / 0.68 / (dies : ℚ) := by linarith
    linarith

/-- Witness for Claim C2 at the concrete input price = [10], shocks 0 < 10,
node constant 900. -/
theorem shock_monotonicity_witness :
    ∃ d1 d2 m1 m2,
      (dieCostSeries 0 900 [10]).get? 0 = some d1 ∧
      (dieCostSeries 10 900 [10]).get? 0 = some d2 ∧
      (marginSeries 0 900 [10]).get? 0 = some m1 ∧
      (marginSeries 10 900 [10]).get? 0 = some m2 ∧
      d1 < d2 ∧ m2 < m1 :=
  shock_monotonicity [10] 0 10 900 0 10 (by norm_num) rfl (by norm_num) (by norm_num)

/-- Claim C5: a node label outside {"65 nm", "28 nm", "14 nm", "7 nm"} makes
the simulator fail (the dict lookup of line 68 finds nothing and raises; no
silent default), while the four known labels map to 700, 900, 1200, 1600. -/
theorem unknown_node_fails (node : String)
    (h : node ∉ ["65 nm", "28 nm", "14 nm", "7 nm"]) (price : List ℚ) (shock : ℚ) :
    simulate price shock node = none ∧
    diesPerWafer ("65 nm") = some 700 ∧ diesPerWafer ("28 nm") = some 900 ∧
    diesPerWafer ("14 nm") = some 1200 ∧ diesPerWafer ("7 nm") = some 1600 := by
  refine ⟨?_, rfl, rfl, rfl, rfl⟩
  simp only [List.mem_cons, List.not_mem_nil, or_false, not_or] at h
  obtain ⟨h1, h2, h3, h4⟩ := h
  have b1 : (node == "65 nm") = false := beq_eq_false_iff_ne.mpr h1
  have b2 : (node == "28 nm") = false := beq_eq_false_iff_ne.mpr h2
  have b3 : (node == "14 nm") = false := beq_eq_false_iff_ne.mpr h3
  have b4 : (node == "7 nm") = false := beq_eq_false_iff_ne.mpr h4
  simp [simulate, diesPerWafer, node_map, List.lookup, b1, b2, b3, b4]

/-- Witness for Claim C5 at the unknown label "5 nm". -/
theorem unknown_node_fails_witness :
    simulate [] 0 ("5 nm") = none ∧
    diesPerWafer ("65 nm") = some 700 ∧ diesPerWafer ("28 nm") = some 900 ∧
    diesPerWafer ("14 nm") = some 1200 ∧ diesPerWafer ("7 nm") = some 1600 :=
  unknown_node_fails ("5 nm") (by decide) [] 0

/-- Sum of the margin map over any die-cost list: the affine image sums to
an affine expression in the list's sum and length. -/
theorem sum_margin_map (l : List ℚ) :
    (l.map (fun d => (ASP - d) / ASP * 100)).sum
      = (ASP * l.length - l.sum) / ASP * 100 := by
  induction l with
  | nil => simp
  | cons a t ih =>
      simp only [List.map_cons, List.sum_cons, List.length_cons, ih]
      push_cast
      ring

/-- Claim C10: the reported mean margin is exactly (ASP − mean dieCost)/ASP·100
for every non-empty price series, because margin is affine in die cost. -/
theorem mean_margin_affine (shock : ℚ) (dies : ℕ) (price : List ℚ) (h : price ≠ []) :
    mean (marginSeries shock dies price) =
      (ASP - mean (dieCostSeries shock dies price)) / ASP * 100 := by
  have hlen : (dieCostSeries shock dies price).length = price.length := by
    simp [dieCostSeries, waferCostSeries, shockedPriceSeries]
  have hn : ((price.length : ℚ)) ≠ 0 := by
    have h0 : price.length ≠ 0 := by simpa using h
    exact_mod_cast h0
  have hASP : ASP ≠ 0 := by norm_num [ASP]
  rw [marginSeries, mean, mean, sum_margin_map, List.length_map, hlen]
  field_simp
  ring_nf
  exact Or.inl trivial

/-- Witness for Claim C10 at the one-point series [10]. -/
theorem mean_margin_affine_witness :
    mean (marginSeries 0 900 [10]) =
      (ASP - mean (dieCostSeries 0 900 [10])) / ASP * 100 :=
  mean_margin_affine 0 900 [10] (List.cons_ne_nil 10 [])

/-- The seed of a left max-fold is below the fold's result. -/
theorem le_foldl_max_init : ∀ (l : List ℚ) (a : ℚ), a ≤ l.foldl max a := by
  intro l
  induction l with
  | nil => intro a; simp
  | cons b t ih =>
      intro a
      simp only [List.foldl_cons]
      exact le_trans (le_max_left a b) (ih (max a b))

/-- Every element of `a :: l` is below the max-fold of `l` seeded with `a`. -/
theorem mem_le_foldl_max : ∀ (l : List ℚ) (a x : ℚ), x ∈ a :: l → x ≤ l.foldl max a := by
  intro l
  induction l with
  | nil =>
      intro a x hx
      simp only [List.mem_singleton] at hx
      simp [hx]
  | cons b t ih =>
      intro a x hx
      simp only [List.foldl_cons]
      rcases List.mem_cons.mp hx with h | h
      · subst h
        exact le_trans (le_max_left x b) (le_foldl_max_init t (max x b))
      · rcases List.mem_cons.mp h with h2 | h2
        · subst h2
          exact le_trans (le_max_right a x) (le_foldl_max_init t (max a x))
        · exact ih (max a b) x (List.mem_cons_of_mem _ h2)

/-- The min-fold's result is below its seed. -/
theorem foldl_min_le_init : ∀ (l : List ℚ) (a : ℚ), l.foldl min a ≤ a := by
  intro l
  induction l with
  | nil => intro a; simp
  | cons b t ih =>
      intro a
      simp only [List.foldl_cons]
      exact le_trans (ih (min a b)) (min_le_left a b)

/-- The min-fold of `l` seeded with `a` is below every element of `a :: l`. -/
theorem foldl_min_le_mem : ∀ (l : List ℚ) (a x : ℚ), x ∈ a :: l → l.foldl min a ≤ x := by
  intro l
  induction l with
  | nil =>
      intro a x hx
      simp only [List.mem_singleton] at hx
      simp [hx]
  | cons b t ih =>
      intro a x hx
      simp only [List.foldl_cons]
      rcases List.mem_cons.mp hx with h | h
      · subst h
        exact le_trans (foldl_min_le_init t (min x b)) (min_le_left x b)
      · rcases List.mem_cons.mp h with h2 | h2
        · subst h2
          exact le_trans (foldl_min_le_init t (min a x)) (min_le_right a x)
        · exact ih (min a b) x (List.mem_cons_of_mem _ h2)

/-- `getLastD l a` is an element of `a :: l`. -/
theorem getLastD_mem : ∀ (l : List ℚ) (a : ℚ), l.getLastD a ∈ a :: l := by
  intro l
  induction l with
  | nil => intro a; simp
  | cons b t ih =>
      intro a
      rw [List.getLastD_cons]
      exact List.mem_cons_of_mem a (ih b)

/-- Claim C8: every bar the monthly OHLC resampling produces satisfies
high ≥ open, high ≥ close, low ≤ open and low ≤ close, with open the first
value of the month, close the last, high the max and low the min. -/
theorem ohlc_bar_invariant (xs : List ((ℕ × ℕ) × ℚ)) (m : ℕ × ℕ) (bar : OHLCBar)
    (h : monthlyBar m xs = some bar) :
    bar.open_ ≤ bar.high ∧ bar.close ≤ bar.high ∧
    bar.low ≤ bar.open_ ∧ bar.low ≤ bar.close := by
  unfold monthlyBar at h
  cases hv : monthValues m xs with
  | nil => rw [hv] at h; exact absurd h (by simp [toOHLC])
  | cons v rest =>
      rw [hv] at h
      rw [show toOHLC (v :: rest) = some (OHLCBar.mk v (rest.foldl max v)
        (rest.foldl min v) (rest.getLastD v)) from rfl] at h
      obtain rfl := Option.some.inj h
      refine ⟨?_, ?_, ?_, ?_⟩
      · exact mem_le_foldl_max rest v v (List.mem_cons_self v rest)
      · exact mem_le_foldl_max rest v _ (getLastD_mem rest v)
      · exact foldl_min_le_mem rest v v (List.mem_cons_self v rest)
      · exact foldl_min_le_mem rest v _ (getLastD_mem rest v)

/-- Witness for Claim C8 on a three-point January-2020 ratio series. -/
theorem ohlc_bar_invariant_witness :
    (OHLCBar.mk 3 5 2 2).open_ ≤ (OHLCBar.mk 3 5 2 2).high ∧
    (OHLCBar.mk 3 5 2 2).close ≤ (OHLCBar.mk 3 5 2 2).high ∧
    (OHLCBar.mk 3 5 2 2).low ≤ (OHLCBar.mk 3 5 2 2).open_ ∧
    (OHLCBar.mk 3 5 2 2).low ≤ (OHLCBar.mk 3 5 2 2).close :=
  ohlc_bar_invariant [((2020, 1), 3), ((2020, 1), 5), ((2020, 1), 2)] (2020, 1)
    (OHLCBar.mk 3 5 2 2) (by rfl)

/-- Claim C9: a lagged correlation with lagDays = 0 is the plain Pearson
correlation of the two series over the same pairs, because a zero shift
introduces no missing values and moves nothing. -/
theorem lagged_zero_eq_pearson (a b : List (Option ℚ)) :
    laggedCorrelation a b 0 = pearsonCorrelation a b := by
  unfold laggedCorrelation shiftForward
  simp

/-- Column date-parsing produces `none` exactly when some row's date is
unparsable. -/
theorem parseRows_eq_none_iff (parseDate : String → Option ℕ) :
    ∀ rows : List RawRow,
      parseRows parseDate rows = none ↔ ∃ r ∈ rows, parseDate r.date = none := by
  intro rows
  induction rows with
  | nil => simp [parseRows]
  | cons r rs ih =>
      cases hd : parseDate r.date with
      | none => simp [parseRows, hd]
      | some d =>
          cases hp : parseRows parseDate rs with
          | none =>
              simp only [parseRows, hd, hp]
              simp [ih.mp hp]
          | some ps =>
              simp only [parseRows, hd, hp]
              constructor
              · intro h; exact absurd h (by simp)
              · rintro ⟨q, hq, hnone⟩
                rcases List.mem_cons.mp hq with h1 | h1
                · rw [h1, hd] at hnone; exact absurd hnone (by simp)
                · have hcontra : parseRows parseDate rs = none := ih.mpr ⟨q, h1, hnone⟩
                  rw [hp] at hcontra; exact absurd hcontra (by simp)

/-- Claim C6 (amended): normalization fails exactly when some date is
unparsable; the price cells are never inspected, so missing or non-positive
prices do not make it fail. -/
theorem normalize_error_iff (parseDate : String → Option ℕ) (rows : List RawRow) :
    (∃ e, normalizeRows parseDate rows = Except.error e) ↔
      (∃ r ∈ rows, parseDate r.date = none) := by
  rw [← parseRows_eq_none_iff parseDate rows]
  unfold normalizeRows
  cases h : parseRows parseDate rows with
  | none => simp [h]
  | some parsed => simp [h]

/-- Claim C6 counterexample: a two-row input whose first price is negative
and whose second price cell is missing is accepted unchanged by
normalization (both dates parse, so nothing fails), refuting the claim that
a missing or non-positive price makes normalization fail. -/
theorem malformed_price_not_rejected :
    normalizeRows demoParse
        [RawRow.mk ("2020-01-01") (some (-5)), RawRow.mk ("2020-01-02") none]
      = Except.ok [(737424, some (-5)), (737425, none)] := by
  rfl

/-- Accessor lemma: an entry of a zipWith is the function of the two
entries. -/
theorem getElem?_zipWith (f : ℚ → ℚ → ℚ) :
    ∀ (as bs : List ℚ) (i : ℕ),
      (List.zipWith f as bs)[i]?
        = as[i]?.bind (fun a => bs[i]?.map (f a)) := by
  intro as
  induction as with
  | nil => intro bs i; simp
  | cons a as ih =>
      intro bs i
      cases bs with
      | nil => simp
      | cons b bs =>
          cases i with
          | zero => simp
          | succ k => simpa using ih bs k

/-- Accessor lemma: the `i`-th draw of `np.random.normal(mu, sigma, n)`
taken at stream offset `start`. -/
theorem getElem?_normalSample (z : ℕ → ℚ) (mu sigma : ℚ) (start n i : ℕ) (h : i < n) :
    (normalSample z mu sigma start n)[i]? = some (mu + sigma * z (start + i)) := by
  simp only [normalSample, List.getElem?_map, List.getElem?_range h, Option.map_some']

/-- Claim C3: each auxiliary entry is exactly the stated constant formula of
the price entry plus its own fresh draw of the stream scaled by the stated
standard deviation around mean 0 (DXY σ=0.6, Copper σ=80, Gold σ=15,
Silver σ=0.6, VIX σ=2, IndustrialDemand σ=5 applied to the Copper entry),
and the GDP-growth entry carries no noise term at all. -/
theorem aux_series_formulas (z : ℕ → ℚ) (price : List ℚ) (i : ℕ) (p : ℚ)
    (hp : price.get? i = some p) :
    (deriveAux z price).DXY.get? i
      = some (100 - 0.25 * p + (0 + 0.6 * z i)) ∧
    (deriveAux z price).Copper.get? i
      = some (6000 + 120 * p + (0 + 80 * z (price.length + i))) ∧
    (deriveAux z price).Gold.get? i
      = some (1400 + 4.5 * p + (0 + 15 * z (2 * price.length + i))) ∧
    (deriveAux z price).Silver.get? i
      = some (18 + 0.09 * p + (0 + 0.6 * z (3 * price.length + i))) ∧
    (deriveAux z price).VIX.get? i
      = some (18 + 0.4 * p + (0 + 2 * z (4 * price.length + i))) ∧
    (deriveAux z price).Industrial_Demand.get? i
      = some (100 + 0.03 * (6000 + 120 * p + (0 + 80 * z (price.length + i)))
          + (0 + 5 * z (5 * price.length + i))) ∧
    (deriveAux z price).GDP_Growth.get? i
      = some (2.5
          + 0.002 * (100 + 0.03 * (6000 + 120 * p + (0 + 80 * z (price.length + i)))
              + (0 + 5 * z (5 * price.length + i)))
          - 0.05 * (18 + 0.4 * p + (0 + 2 * z (4 * price.length + i)))) := by
  obtain ⟨hi, -⟩ := List.get?_eq_some.mp hp
  have hp2 : price[i]? = some p := by simpa [List.get?_eq_getElem?] using hp
  have e1 := getElem?_normalSample z 0 0.6 0 price.length i hi
  have e2 := getElem?_normalSample z 0 80 price.length price.length i hi
  have e3 := getElem?_normalSample z 0 15 (2 * price.length) price.length i hi
  have e4 := getElem?_normalSample z 0 0.6 (3 * price.length) price.length i hi
  have e5 := getElem?_normalSample z 0 2 (4 * price.length) price.length i hi
  have e6 := getElem?_normalSample z 0 5 (5 * price.length) price.length i hi
  refine ⟨?_, ?_, ?_, ?_, ?_, ?_, ?_⟩ <;>
    simp [deriveAux, List.get?_eq_getElem?, getElem?_zipWith, hp2, e1, e2, e3, e4, e5, e6]

/-- Witness for Claim C3 on the one-point series [10] with the constant
stream that draws 7 everywhere. -/
theorem aux_series_formulas_witness :
    (deriveAux (fun _ => (7:ℚ)) [10]).DXY.get? 0
      = some (100 - 0.25 * 10 + (0 + 0.6 * 7)) ∧
    (deriveAux (fun _ => (7:ℚ)) [10]).Copper.get? 0
      = some (6000 + 120 * 10 + (0 + 80 * 7)) ∧
    (deriveAux (fun _ => (7:ℚ)) [10]).Gold.get? 0
      = some (1400 + 4.5 * 10 + (0 + 15 * 7)) ∧
    (deriveAux (fun _ => (7:ℚ)) [10]).Silver.get? 0
      = some (18 + 0.09 * 10 + (0 + 0.6 * 7)) ∧
    (deriveAux (fun _ => (7:ℚ)) [10]).VIX.get? 0
      = some (18 + 0.4 * 10 + (0 + 2 * 7)) ∧
    (deriveAux (fun _ => (7:ℚ)) [10]).Industrial_Demand.get? 0
      = some (100 + 0.03 * (6000 + 120 * 10 + (0 + 80 * 7)) + (0 + 5 * 7)) ∧
    (deriveAux (fun _ => (7:ℚ)) [10]).GDP_Growth.get? 0
      = some (2.5 + 0.002 * (100 + 0.03 * (6000 + 120 * 10 + (0 + 80 * 7)) + (0 + 5 * 7))
          - 0.05 * (18 + 0.4 * 10 + (0 + 2 * 7))) :=
  aux_series_formulas (fun _ => (7:ℚ)) [10] 0 10 rfl

/-- Claim C4: the derivation is deterministic: any two runs over the same
price series with the same fixed seed (42, line 42) return equal auxiliary
series, because the embedded pipeline is a pure function of seed and price. -/
theorem normalize_deterministic (price : List ℚ) (r1 r2 : AuxiliarySeries)
    (h1 : r1 = normalizeAux 42 price) (h2 : r2 = normalizeAux 42 price) :
    r1 = r2 := by
  rw [h1, h2]

/-- Witness for Claim C4: two runs over [10] agree. -/
theorem normalize_deterministic_witness :
    normalizeAux 42 [10] = normalizeAux 42 [10] :=
  normalize_deterministic [10] (normalizeAux 42 [10]) (normalizeAux 42 [10]) rfl rfl
